import Mathlib

/-!
Shallow embedding of the dottery deployment engine (Rust sources:
`src/main.rs`, `src/processing.rs`, `src/config.rs`, `src/packages.rs`).

Paths are modelled two ways, mirroring the Rust code's own dual use:
as component lists (`std::path::Component`, used by `should_deploy`) and
as character lists (`&str`, used by the `str::replace`-based path
remapping and by extension handling).
-/

namespace Dottery

/-- `std::path::Component`: prefix, root, current dir, parent dir, or a
normal named component. -/
inductive PathComponent where
  | prefixComp
  | rootDir
  | curDir
  | parentDir
  | normal (name : String)
deriving DecidableEq, Repr

/-- A `walkdir::DirEntry` as the filter predicates see it: its path's
components and its file type (directory or not). -/
structure Entry where
  components : List PathComponent
  isDir : Bool
deriving DecidableEq, Repr

/-- `should_deploy` (processing.rs:159-171): with no allow-list every entry
deploys; with `Some dots`, the entry deploys iff some `Component::Normal`
of its path is contained in `dots`. -/
def should_deploy (entry : Entry) (to_deploy : Option (List String)) : Bool :=
  match to_deploy with
  | none => true
  | some dots =>
    entry.components.any fun component =>
      match component with
      | .normal dot => dots.contains dot
      | _ => false

/-- The `filter_entry` predicate of the template walk
(processing.rs:71): directories always pass; files pass iff
`should_deploy`. -/
def filterEntry (entry : Entry) (to_deploy : Option (List String)) : Bool :=
  entry.isDir || should_deploy entry to_deploy

/-- Splits a character list at its LAST occurrence of `sep`, returning the
parts before and after it; `none` when `sep` does not occur. -/
def splitAtLast (sep : Char) : List Char → Option (List Char × List Char)
  | [] => none
  | c :: rest =>
    match splitAtLast sep rest with
    | some (pre, post) => some (c :: pre, post)
    | none => if c = sep then some ([], rest) else none

/-- `std::path::Path::extension` applied to a file name: the part after
the last `.`, provided something nonempty precedes that dot (so
`".gitignore"` has no extension, `"photo.png"` has `"png"`). -/
def extOfName (name : String) : Option String :=
  match splitAtLast '.' name.toList with
  | some (pre, ext) => if pre = [] then none else some (String.mk ext)
  | none => none

/-- `std::path::Path::with_extension` on a path string: replaces the final
component's extension (or appends one when there is none). -/
def withExtensionStr (p : List Char) (ext : String) : List Char :=
  let newName := fun (name : List Char) =>
    match splitAtLast '.' name with
    | some (pre, _) =>
      if pre = [] then name ++ '.' :: ext.toList else pre ++ '.' :: ext.toList
    | none => name ++ '.' :: ext.toList
  match splitAtLast '/' p with
  | some (dir, name) => dir ++ '/' :: newName name
  | none => newName p

/-- Fuel-indexed worker for `replaceAll`; the fuel starts at the string's
length, which bounds the number of steps since every step consumes at
least one character. -/
def replaceAllAux (pat rep : List Char) : Nat → List Char → List Char
  | _, [] => []
  | 0, s => s
  | fuel + 1, c :: rest =>
    if pat.isPrefixOf (c :: rest) then
      rep ++ replaceAllAux pat rep fuel ((c :: rest).drop pat.length)
    else
      c :: replaceAllAux pat rep fuel rest

/-- Rust `str::replace` for a nonempty pattern: replaces every
non-overlapping occurrence of `pat` in `s` by `rep`, scanning left to
right. (The empty-pattern case never arises in this program: the pattern
is always `dotfiles_path ++ "/raw"` or `dotfiles_path ++ "/template"`.) -/
def replaceAll (s pat rep : List Char) : List Char :=
  if pat = [] then s else replaceAllAux pat rep s.length s

/-- `BIN_EXTENSIONS` (processing.rs:20): extensions treated as binary. -/
def BIN_EXTENSIONS : List String := ["png", "jpg"]

/-- `sass_extensions` (processing.rs:65). -/
def SASS_EXTENSIONS : List String := ["sass", "scss"]

/-- One file of the template tree as the per-file closure of
`process_templates` (processing.rs:79-141) sees it: the entry (path
components + file type), the path as a string, and the file's contents. -/
structure TFile where
  entry : Entry
  pathStr : List Char
  contents : String
deriving DecidableEq, Repr

/-- `Path::file_name` on the entry's components: the final component when
it is a normal one. -/
def fileName (f : TFile) : Option String :=
  match f.entry.components.getLast? with
  | some (.normal n) => some n
  | _ => none

/-- `path.extension()` as used at processing.rs:87-89 and 131. -/
def fileExtension (f : TFile) : Option String :=
  (fileName f).bind extOfName

/-- The binary guard of processing.rs:87-92:
`path.extension().is_none_or(|ext| bin_extensions.contains(&ext))` —
true means the file is skipped (no extension, or a binary extension). -/
def skipAsBinary (f : TFile) : Bool :=
  match fileExtension f with
  | none => true
  | some ext => BIN_EXTENSIONS.contains ext

/-- Result of `process_sass` (processing.rs:145-157). `panickedTodo` is
the `todo!()` hit when the `sass` binary is not on the PATH; `ran` records
the invocation `sass old new --no-source-map` with `new` the input path
re-extensioned to `css` and the flag recording `--no-source-map`. -/
inductive SassResult where
  | panickedTodo
  | ran (old new : List Char) (noSourceMap : Bool)
deriving DecidableEq, Repr

/-- `process_sass` (processing.rs:145-157), with the ambient
`command_exists "sass"` probe passed in as `sassInstalled`. -/
def process_sass (sassInstalled : Bool) (path : List Char) : SassResult :=
  if !sassInstalled then .panickedTodo
  else .ran path (withExtensionStr path "css") true

/-- The recorded sass invocation attached to a written file. -/
structure SassRun where
  old : List Char
  new : List Char
  noSourceMap : Bool
deriving DecidableEq, Repr

/-- Outcome of the per-file closure of `process_templates`
(processing.rs:79-141): skipped at the binary guard (returns `Ok(())`
without writing), written to the remapped target (with the sass
invocation, if any), or panicked — the `.unwrap()` on
`template_from_str`/`render` (processing.rs:113,116) and the `todo!()`
inside `process_sass` abort the whole process. -/
inductive FileStep where
  | skipped
  | written (target : List Char) (output : String) (sass : Option SassRun)
  | panicked (msg : String)
deriving DecidableEq, Repr

/-- The per-file body of `process_templates` (processing.rs:79-141).
`render` stands for `env.template_from_str(&contents)` followed by
`.render(&settings)`; both results are `.unwrap()`ed at
processing.rs:113,116, so an error from either is a panic, modelled as a
single abort point. The target path is computed by the `str::replace` at
processing.rs:118-121. -/
def processFile (render : String → Except String String) (sassInstalled : Bool)
    (dotfilesPath home : String) (f : TFile) : FileStep :=
  if skipAsBinary f then .skipped
  else
    match render f.contents with
    | .error e => .panicked e
    | .ok output =>
      let target := replaceAll f.pathStr (dotfilesPath ++ "/template").toList home.toList
      match fileExtension f with
      | none => .written target output none
      | some ext =>
        if SASS_EXTENSIONS.contains ext then
          match process_sass sassInstalled target with
          | .panickedTodo => .panicked "not yet implemented"
          | .ran old new noSourceMap => .written target output (some ⟨old, new, noSourceMap⟩)
        else .written target output none

/-- The observable outcome of one template pass: the files written (target
path and rendered output, in walk order) and, when some `.unwrap()` or
`todo!()` fired, the panic message — everything after the panic is left
unprocessed. -/
structure RunResult where
  writes : List (List Char × String)
  panicked : Option String
deriving DecidableEq, Repr

/-- `process_templates` over the (file-type = file) entries the walk
yields, in order (processing.rs:54-143). Directories always pass
`filter_entry` (the `is_dir()` disjunct), so the files reaching the
per-file closure are exactly those satisfying `should_deploy`. A panic
aborts the whole run: later files are not processed. -/
def processTemplates (render : String → Except String String) (sassInstalled : Bool)
    (dotfilesPath home : String) (to_deploy : Option (List String)) :
    List TFile → RunResult
  | [] => ⟨[], none⟩
  | f :: rest =>
    if should_deploy f.entry to_deploy then
      match processFile render sassInstalled dotfilesPath home f with
      | .skipped => processTemplates render sassInstalled dotfilesPath home to_deploy rest
      | .panicked msg => ⟨[], some msg⟩
      | .written target output _ =>
        let r := processTemplates render sassInstalled dotfilesPath home to_deploy rest
        ⟨(target, output) :: r.writes, r.panicked⟩
    else processTemplates render sassInstalled dotfilesPath home to_deploy rest

/-- The path remapping of the raw pass (processing.rs:42-43 and
main.rs:294-297): a Rust `str::replace` of `dotfiles_path ++ "/raw"` by
the home directory, applied to the whole path string. -/
def targetPathRaw (dotfilesPath home pathStr : String) : List Char :=
  replaceAll pathStr.toList (dotfilesPath ++ "/raw").toList home.toList

/-- The Path Mapper as the spec words it (spec §4.1): substitute the
tree-root prefix only, keep the remainder unchanged; defined only for
paths under the root. Named `Spec` because it follows the spec, not the
source, for comparison with `targetPathRaw`. -/
def mapPathSpec (sourceTreeRoot destRoot p : String) : Option (List Char) :=
  if sourceTreeRoot.toList.isPrefixOf p.toList then
    some (destRoot.toList ++ p.toList.drop sourceTreeRoot.toList.length)
  else none

/-- A `toml::Value`: just enough structure for the settings document
(tables are association lists in document order). -/
inductive Toml where
  | str (s : String)
  | int (n : Int)
  | boolean (b : Bool)
  | table (kvs : List (String × Toml))

/-- `toml::map::Map::get`-style lookup on an association list (first
match; parsed TOML tables have unique keys). -/
def lookupKey (k : String) : List (String × Toml) → Option Toml
  | [] => none
  | (k', v) :: rest => if k' = k then some v else lookupKey k rest

/-- `toml::map::Map::remove`: drops the (first) entry with key `k`. -/
def removeKey (k : String) : List (String × Toml) → List (String × Toml)
  | [] => []
  | (k', v) :: rest => if k' = k then rest else (k', v) :: removeKey k rest

/-- `Package` (config.rs:69-73): a name and an optional `from_aur` flag. -/
structure Package where
  name : String
  from_aur : Option Bool
deriving DecidableEq, Repr

/-- `Package::from_aur` (config.rs:88-92): `self.from_aur.unwrap_or(false)`. -/
def Package.fromAur (p : Package) : Bool :=
  p.from_aur.getD false

/-- `Dependencies` (config.rs:76-80). -/
structure Dependencies where
  required : Option (List Package)
  optional : Option (List Package)
deriving DecidableEq, Repr

/-- `Dotfiles` (config.rs:59-65): the Manifest decoded from the reserved
`dottery` key. -/
structure Dotfiles where
  packages : List Package
  dependencies : Option Dependencies
deriving DecidableEq, Repr

/-- The settings stage of `main` (main.rs:123-138): read `..toml` (a
missing file panics), parse it (`toml::from_str`, abstracted as
`parseToml`), take it as a table (`as_table_mut`), `remove` the reserved
`dottery` key (absence panics), and decode it into `Dotfiles`
(`Dotfiles::deserialize`, abstracted as `deserializeDotfiles`). Each
`.expect` panic is modelled as `.error` with its message; on success the
settings exposed to templates are the table with `dottery` removed. -/
def mainSettingsStage (fileContents : Option String)
    (parseToml : String → Option Toml)
    (deserializeDotfiles : Toml → Option Dotfiles) :
    Except String (List (String × Toml) × Dotfiles) :=
  match fileContents with
  | none => .error "`..toml` not found in dotfiles directory"
  | some s =>
    match parseToml s with
    | none => .error "failed to parse dotfiles configuration"
    | some v =>
      match v with
      | .table kvs =>
        match lookupKey "dottery" kvs with
        | none => .error "failed to get section `dottery`"
        | some dv =>
          match deserializeDotfiles dv with
          | none => .error "failed to parse config file"
          | some dots => .ok (removeKey "dottery" kvs, dots)
      | _ => .error "failed to parse config file"

/-- A deployment pass of the `Deploy` arm (main.rs:166-185): the raw copy
pass or the template pass. These are the only operations that copy,
render, or write files into the destination tree. -/
inductive Action where
  | rawPass
  | templatePass
deriving DecidableEq, Repr

/-- The `Deploy` arm (main.rs:174-184): `copy_raw` runs unless
`template_only`; `process_templates` runs unless `raw_only`. -/
def deployPasses (raw_only template_only : Bool) : List Action :=
  (if !template_only then [Action.rawPass] else []) ++
  (if !raw_only then [Action.templatePass] else [])

/-- `main` up to and including the `Deploy` dispatch (main.rs:118-185):
the settings stage runs first; any of its panics aborts the process
before the command is even matched, so no deployment action happens.
On success the `Deploy` arm contributes its passes. -/
def mainRun (fileContents : Option String)
    (parseToml : String → Option Toml)
    (deserializeDotfiles : Toml → Option Dotfiles)
    (raw_only template_only : Bool) : Except String (List Action) :=
  match mainSettingsStage fileContents parseToml deserializeDotfiles with
  | .error e => .error e
  | .ok _ => .ok (deployPasses raw_only template_only)

/-- The deployment actions actually performed: none when the run aborted
with a (modelled) panic. -/
def actionsOf : Except String (List Action) → List Action
  | .error _ => []
  | .ok acts => acts

/-- `filter_packages` (main.rs:400-433), with the `is_yay_installed()`
probe passed in: without yay, the command is `pacman` and the list keeps
exactly the packages whose `from_aur()` is true (the
`pkg.from_aur().then_some(pkg.name())` filter); with yay, the command is
`yay` and every declared name is kept; an explicit `to_install` list
then restricts either result by membership. -/
def filter_packages (yayInstalled : Bool) (packages : List Package)
    (to_install : Option (List String)) : String × List String :=
  if !yayInstalled then
    ("pacman",
      let pkgs := packages.filterMap fun pkg =>
        if pkg.fromAur then some pkg.name else none
      match to_install with
      | some ps => pkgs.filter fun pkg => ps.contains pkg
      | none => pkgs)
  else
    ("yay",
      let pkgs := packages.map Package.name
      match to_install with
      | some ps => pkgs.filter fun pkg => ps.contains pkg
      | none => pkgs)

/-- Inserting one key into an association-list table, replacing an
existing entry of the same key in place, else appending. -/
def insertKey (k : String) (v : Toml) : List (String × Toml) → List (String × Toml)
  | [] => [(k, v)]
  | (k', v') :: rest => if k' = k then (k, v) :: rest else (k', v') :: insertKey k v rest

/-- Modelled from the spec: the Settings Merger (spec §4.4) that combines
the base manifest document `..toml` with the personal overlay
`.personal.toml` is not present under `src/` — `main.rs` reads only
`..toml`, and config.rs only declares the overlay file in
`Files.include`. Following the spec's words, the merge is shallow at the
top level: every top-level key of the overlay replaces the same-named
key of the base, keys present in only one document pass through. -/
def mergeSettings (base overlay : List (String × Toml)) : List (String × Toml) :=
  overlay.foldl (fun acc kv => insertKey kv.1 kv.2 acc) base

/-- A file of the template tree at `/d/template/<n>` with contents `c`,
used for concrete scenarios (dotfiles root `/d`, home `/h`). -/
def tmplFile (n c : String) : TFile :=
  ⟨⟨[.rootDir, .normal "d", .normal "template", .normal n], false⟩,
   ("/d/template/" ++ n).toList, c⟩

/-- C1. The deploy passes remap paths with a Rust `str::replace` of the
full tree-root string (processing.rs:42-43, 118-121), which substitutes
EVERY occurrence, not just the leading prefix: for dotfiles root `/d`,
home `/h`, and the source file `/d/raw/a/d/raw/b` (the directory
`a/d/raw` under the raw tree), the code produces `/h/a/h/b`, while the
claimed prefix-anchored mapping gives `/h/a/d/raw/b` — the remainder of
the path is not preserved. -/
theorem c1_path_remap_is_blind_replace :
    targetPathRaw "/d" "/h" "/d/raw/a/d/raw/b" = "/h/a/h/b".toList
    ∧ mapPathSpec "/d/raw" "/h" "/d/raw/a/d/raw/b" = some "/h/a/d/raw/b".toList
    ∧ targetPathRaw "/d" "/h" "/d/raw/a/d/raw/b" ≠ "/h/a/d/raw/b".toList := by
  refine ⟨by decide, by decide, by decide⟩

/-- C2. A render failure on one file aborts the whole template pass: the
`.unwrap()`s at processing.rs:113,116 panic. In a tree of five template
files whose third fails to render, only the first two are written, the
run ends with the panic, and the last two files are never processed —
not four writes and one logged error as claimed. -/
theorem c2_render_failure_panics_whole_run :
    processTemplates
        (fun c => if c = "BAD" then Except.error "syntax error" else Except.ok c)
        true "/d" "/h" none
        [tmplFile "f1.sh" "one", tmplFile "f2.sh" "two", tmplFile "f3.sh" "BAD",
         tmplFile "f4.sh" "four", tmplFile "f5.sh" "five"]
      = ⟨[("/h/f1.sh".toList, "one"), ("/h/f2.sh".toList, "two")], some "syntax error"⟩ := by
  decide

/-- C6. `filter_packages` (main.rs:400-433): with yay installed every
declared name is passed to yay, as claimed; but without yay the filter
`pkg.from_aur().then_some(pkg.name())` keeps exactly the AUR-marked
packages, so pacman is invoked with the AUR packages (`["bar"]`) instead
of the non-AUR ones (`["foo", "baz"]`) — the filter is inverted. -/
theorem c6_filter_packages_pacman_inverted :
    (∀ ps : List Package, filter_packages true ps none = ("yay", ps.map Package.name))
    ∧ filter_packages false
        [⟨"foo", some false⟩, ⟨"bar", some true⟩, ⟨"baz", none⟩] none
      = ("pacman", ["bar"])
    ∧ (("pacman", ["bar"]) : String × List String) ≠ ("pacman", ["foo", "baz"]) := by
  refine ⟨fun ps => rfl, by decide, by decide⟩

/-- C7. `process_sass` (processing.rs:145-157): with the compiler
installed it runs `sass old new --no-source-map` with `new` the sibling
`.css` path, and a `.sh` file never reaches it even when sass is absent;
but when the `sass` binary is missing it hits `todo!()` and panics
("not yet implemented"), aborting the run instead of surfacing a
configuration error to the user. -/
theorem c7_sass_postprocess_todo_panic :
    process_sass true "/h/style.scss".toList
      = SassResult.ran "/h/style.scss".toList "/h/style.css".toList true
    ∧ process_sass false "/h/style.scss".toList = SassResult.panickedTodo
    ∧ processFile (fun c => Except.ok c) false "/d" "/h" (tmplFile "style.scss" "body")
      = FileStep.panicked "not yet implemented"
    ∧ processFile (fun c => Except.ok c) false "/d" "/h" (tmplFile "shell.sh" "echo")
      = FileStep.written "/h/shell.sh".toList "echo" none := by
  refine ⟨by decide, by decide, by decide, by decide⟩

/-- C10. With both `--raw` and `--template` set, the `Deploy` arm
(main.rs:174-184) performs neither pass (each flag suppresses the other
pass), while with neither flag both passes run. -/
theorem c10_deploy_both_flags_no_passes :
    mainRun (some "cfg")
        (fun _ => some (Toml.table [("dottery", Toml.boolean true)]))
        (fun _ => some ⟨[], none⟩) true true = Except.ok []
    ∧ deployPasses false false = [Action.rawPass, Action.templatePass] :=
  ⟨rfl, rfl⟩

/-- C3. `should_deploy` (processing.rs:159-171): with no allow-list every
entry deploys; with an allow-list, an entry deploys iff some normal path
component equals (exactly) a member of the list; and the template walk's
`filter_entry` (processing.rs:71) never excludes a directory, whatever
the list. -/
theorem c3_should_deploy_semantics :
    (∀ e : Entry, should_deploy e none = true)
    ∧ (∀ (e : Entry) (l : List String),
        should_deploy e (some l) = true
          ↔ ∃ d, PathComponent.normal d ∈ e.components ∧ d ∈ l)
    ∧ (∀ (e : Entry) (l : Option (List String)),
        e.isDir = true → filterEntry e l = true) := by
  refine ⟨fun e => rfl, fun e l => ?_, fun e l h => by simp [filterEntry, h]⟩
  simp only [should_deploy, List.any_eq_true]
  constructor
  · rintro ⟨c, hc, hm⟩
    cases c with
    | normal d => exact ⟨d, hc, by simpa using hm⟩
    | prefixComp => simp at hm
    | rootDir => simp at hm
    | curDir => simp at hm
    | parentDir => simp at hm
  · rintro ⟨d, hd, hdl⟩
    exact ⟨.normal d, hd, by simpa using hdl⟩

/-- Witness for C3 at a concrete directory entry and a non-matching
allow-list. -/
theorem c3_should_deploy_semantics_witness :
    filterEntry ⟨[PathComponent.rootDir, PathComponent.normal "zsh"], true⟩
      (some ["nvim"]) = true :=
  c3_should_deploy_semantics.2.2
    ⟨[PathComponent.rootDir, PathComponent.normal "zsh"], true⟩ (some ["nvim"]) rfl

/-- The binary guard fails exactly on files with an extension outside the
denylist. -/
theorem skipAsBinary_eq_false_iff (f : TFile) :
    skipAsBinary f = false
      ↔ ∃ e, fileExtension f = some e ∧ BIN_EXTENSIONS.contains e = false := by
  unfold skipAsBinary
  cases h : fileExtension f with
  | none => simp
  | some ext => simp [h]

/-- Once past the binary guard, the per-file body never returns
`skipped`: it either writes or panics. -/
theorem processFile_ne_skipped (render : String → Except String String)
    (sassInstalled : Bool) (dp h : String) (f : TFile)
    (hs : skipAsBinary f = false) :
    processFile render sassInstalled dp h f ≠ FileStep.skipped := by
  unfold processFile
  rw [hs]
  simp only [Bool.false_eq_true, if_false]
  cases render f.contents with
  | error e => simp
  | ok output =>
    cases hext : fileExtension f with
    | none => simp
    | some ext =>
      by_cases hsass : SASS_EXTENSIONS.contains ext
      · simp only [hsass, if_true]
        cases process_sass sassInstalled _ <;> simp
      · have hm : ext ∉ SASS_EXTENSIONS := by simpa using hsass
        simp [hm]

/-- C8. A file is handed to the template renderer iff its path has an
extension not in `BIN_EXTENSIONS` (processing.rs:87-92): the per-file
body skips exactly the non-candidates; concretely, `photo.png` is always
skipped and `shell.sh` is always rendered. -/
theorem c8_template_candidate_iff :
    (∀ (render : String → Except String String) (sassInstalled : Bool)
       (dp hm : String) (f : TFile),
        processFile render sassInstalled dp hm f ≠ FileStep.skipped
          ↔ ∃ e, fileExtension f = some e ∧ BIN_EXTENSIONS.contains e = false)
    ∧ (∀ (render : String → Except String String) (sassInstalled : Bool)
        (dp hm : String),
        processFile render sassInstalled dp hm (tmplFile "photo.png" "bytes")
          = FileStep.skipped)
    ∧ (∀ (render : String → Except String String) (sassInstalled : Bool)
        (dp hm : String),
        processFile render sassInstalled dp hm (tmplFile "shell.sh" "echo")
          ≠ FileStep.skipped) := by
  have hmain : ∀ (render : String → Except String String) (sassInstalled : Bool)
      (dp hm : String) (f : TFile),
      processFile render sassInstalled dp hm f ≠ FileStep.skipped
        ↔ ∃ e, fileExtension f = some e ∧ BIN_EXTENSIONS.contains e = false := by
    intro render sassInstalled dp hm f
    rw [← skipAsBinary_eq_false_iff]
    constructor
    · intro hne
      cases hs : skipAsBinary f with
      | false => rfl
      | true => exact absurd (by simp [processFile, hs]) hne
    · exact processFile_ne_skipped render sassInstalled dp hm f
  refine ⟨hmain, fun render sassInstalled dp hm => ?_, fun render sassInstalled dp hm => ?_⟩
  · simp [processFile, show skipAsBinary (tmplFile "photo.png" "bytes") = true from by decide]
  · exact processFile_ne_skipped render sassInstalled dp hm _ (by decide)

/-- C9. A non-candidate of the template pass (no extension, or a
denylisted binary extension) is skipped entirely: its per-file step is
`skipped` — nothing is written and nothing is copied (the template pass
contains no copy operation at all) — and the pass over a tree starting
with such a file equals the pass over the rest of the tree. -/
theorem c9_non_candidate_skipped (render : String → Except String String)
    (sassInstalled : Bool) (dp hm : String) (to_deploy : Option (List String))
    (f : TFile) (rest : List TFile) (hs : skipAsBinary f = true) :
    processFile render sassInstalled dp hm f = FileStep.skipped
    ∧ processTemplates render sassInstalled dp hm to_deploy (f :: rest)
        = processTemplates render sassInstalled dp hm to_deploy rest := by
  have h1 : processFile render sassInstalled dp hm f = FileStep.skipped := by
    simp [processFile, hs]
  refine ⟨h1, ?_⟩
  by_cases hd : should_deploy f.entry to_deploy
  · simp [processTemplates, hd, h1]
  · simp [processTemplates, hd]

/-- Witness for C9 at a concrete binary file (`photo.png`). -/
theorem c9_non_candidate_skipped_witness :
    processFile (fun c => Except.ok c) true "/d" "/h" (tmplFile "photo.png" "bytes")
        = FileStep.skipped
    ∧ processTemplates (fun c => Except.ok c) true "/d" "/h" none
          [tmplFile "photo.png" "bytes"]
        = processTemplates (fun c => Except.ok c) true "/d" "/h" none [] :=
  c9_non_candidate_skipped (fun c => Except.ok c) true "/d" "/h" none
    (tmplFile "photo.png" "bytes") [] (by decide)

/-- Lookup misses a table whose keys do not include `q`. -/
theorem lookupKey_eq_none_of_notMem (q : String) (kvs : List (String × Toml))
    (h : q ∉ kvs.map Prod.fst) : lookupKey q kvs = none := by
  induction kvs with
  | nil => rfl
  | cons kv rest ih =>
    obtain ⟨k', v⟩ := kv
    simp only [List.map_cons, List.mem_cons] at h
    push_neg at h
    have hne : ¬k' = q := fun hh => h.1 hh.symm
    simp [lookupKey, hne, ih h.2]

/-- Lookup after a single-key insert. -/
theorem lookupKey_insertKey (q k : String) (v : Toml) (kvs : List (String × Toml)) :
    lookupKey q (insertKey k v kvs)
      = if k = q then some v else lookupKey q kvs := by
  induction kvs with
  | nil => simp [insertKey, lookupKey]
  | cons kv rest ih =>
    obtain ⟨k', v'⟩ := kv
    by_cases h1 : k' = k
    · subst h1
      by_cases h2 : k' = q <;> simp [insertKey, lookupKey, h2]
    · by_cases h2 : k' = q
      · subst h2
        have : ¬(k = k') := fun hh => h1 hh.symm
        simp [insertKey, h1, lookupKey, this]
      · simp [insertKey, h1, lookupKey, h2, ih]

/-- Lookup in the merged document prefers the overlay and falls back to
the base, provided the overlay's keys are distinct (as in any parsed
TOML table). -/
theorem lookupKey_mergeSettings (q : String) :
    ∀ (overlay base : List (String × Toml)),
      (overlay.map Prod.fst).Nodup →
      lookupKey q (mergeSettings base overlay)
        = (lookupKey q overlay).orElse (fun _ => lookupKey q base) := by
  intro overlay
  induction overlay with
  | nil => intro base _; rfl
  | cons kv rest ih =>
    intro base hnd
    obtain ⟨k, v⟩ := kv
    simp only [List.map_cons, List.nodup_cons] at hnd
    have step : mergeSettings base ((k, v) :: rest)
        = mergeSettings (insertKey k v base) rest := rfl
    rw [step, ih _ hnd.2]
    by_cases hq : k = q
    · subst hq
      rw [lookupKey_eq_none_of_notMem k rest hnd.1]
      simp [lookupKey, lookupKey_insertKey, Option.orElse]
    · simp [lookupKey, hq, lookupKey_insertKey]

/-- C4. The modelled Settings Merger is shallow and overlay-biased at the
top level: every key looked up in the merged document takes the
overlay's value when the overlay has the key and the base's value
otherwise; on the spec's concrete example, base `{a:1, b:2}` with
overlay `{b:3, c:4}` merges to `{a:1, b:3, c:4}`. -/
theorem c4_merge_settings_shallow :
    (∀ (base overlay : List (String × Toml)) (q : String),
        (overlay.map Prod.fst).Nodup →
        lookupKey q (mergeSettings base overlay)
          = (lookupKey q overlay).orElse (fun _ => lookupKey q base))
    ∧ mergeSettings [("a", Toml.int 1), ("b", Toml.int 2)]
          [("b", Toml.int 3), ("c", Toml.int 4)]
      = [("a", Toml.int 1), ("b", Toml.int 3), ("c", Toml.int 4)] := by
  refine ⟨fun base overlay q h => lookupKey_mergeSettings q overlay base h, ?_⟩
  rfl

/-- Witness for C4 on the spec's concrete documents. -/
theorem c4_merge_settings_shallow_witness :
    lookupKey "b" (mergeSettings [("a", Toml.int 1), ("b", Toml.int 2)]
        [("b", Toml.int 3), ("c", Toml.int 4)])
      = (lookupKey "b" [("b", Toml.int 3), ("c", Toml.int 4)]).orElse
          (fun _ => lookupKey "b" [("a", Toml.int 1), ("b", Toml.int 2)]) :=
  c4_merge_settings_shallow.1 _ _ "b" (by decide)

/-- C5. Every configuration failure of the settings stage — `..toml`
missing, unparseable, the reserved `dottery` key absent, or its value
undecodable — makes `mainRun` abort before the command dispatch, so no
deployment action (raw copy or template pass) is performed. -/
theorem c5_config_error_aborts :
    ∀ (fc : Option String) (p : String → Option Toml)
      (d : Toml → Option Dotfiles) (r t : Bool),
    ((∃ e, mainSettingsStage fc p d = .error e)
        → actionsOf (mainRun fc p d r t) = [])
    ∧ (fc = none → ∃ e, mainSettingsStage fc p d = .error e)
    ∧ (∀ s, fc = some s → p s = none
        → ∃ e, mainSettingsStage fc p d = .error e)
    ∧ (∀ s kvs, fc = some s → p s = some (.table kvs)
        → lookupKey "dottery" kvs = none
        → ∃ e, mainSettingsStage fc p d = .error e)
    ∧ (∀ s kvs v, fc = some s → p s = some (.table kvs)
        → lookupKey "dottery" kvs = some v → d v = none
        → ∃ e, mainSettingsStage fc p d = .error e) := by
  intro fc p d r t
  refine ⟨?_, ?_, ?_, ?_, ?_⟩
  · rintro ⟨e, he⟩
    simp [mainRun, he, actionsOf]
  · rintro rfl
    exact ⟨_, rfl⟩
  · rintro s rfl hp
    exact ⟨"failed to parse dotfiles configuration", by simp [mainSettingsStage, hp]⟩
  · rintro s kvs rfl hp hl
    exact ⟨"failed to get section `dottery`", by simp [mainSettingsStage, hp, hl]⟩
  · rintro s kvs v rfl hp hl hd
    exact ⟨"failed to parse config file", by simp [mainSettingsStage, hp, hl, hd]⟩

/-- Witness for C5: with `..toml` missing, no deployment action runs. -/
theorem c5_config_error_aborts_witness :
    actionsOf (mainRun none (fun _ => none) (fun _ => none) false false) = [] :=
  (c5_config_error_aborts none (fun _ => none) (fun _ => none) false false).1
    ((c5_config_error_aborts none (fun _ => none) (fun _ => none) false false).2.1 rfl)

end Dottery
